import Mathlib

/-!
Verification of SpatialReader (src/main.c), a real-time accelerometer
pipeline: an ingest callback (`SpatialDataHandler`) fills a circular
pipeline of `PIPELINE_LEN = 100` one-second slots, a polling consumer
(`process`) computes per-axis amplitude spectra (`calc_amplitude_spectrum`)
from ready slots, folds them into an `avg_int_in_sec`-second window, and on
window completion emits one CSV row per axis (`output_csv`) using either a
mean or a running-max fold.

The C globals (`rbufi`, `ibptr`, `aind`, `unproc`, `inbuf`, `ampspec`) are
gathered into an explicit state record; the fixed configuration globals
(`samplerate`, `maxfreq`, `avg_int_in_sec`, `PIPELINE_LEN`,
`max_instead_of_avg`) are passed as parameters.  The external FFT backend
(`rfftw_one`) is an abstract parameter; the file-system side of the CSV
sink is a small record of open/append success flags plus the list of rows
written so far.  Real sample values are modelled as real numbers, so the
definitions below live in a noncomputable section; all concrete evaluation
in the theorems goes through the kernel.
-/

noncomputable section

/-- The mutable program state: the C globals `rbufi` (intra-second write
offset), `ibptr` (active slot index), `aind` (window fill index),
`unproc` (per-slot ready flags), `inbuf` (slot → axis → sample index →
value) and `ampspec` (axis → window position → amplitude spectrum), plus a
count of "Realtime error!" diagnostics printed by `SpatialDataHandler`. -/
structure St where
  rbufi : ℕ
  ibptr : ℕ
  aind : ℕ
  unproc : List Bool
  inbuf : ℕ → ℕ → ℕ → ℝ
  ampspec : ℕ → ℕ → List ℝ
  rtErrors : ℕ

/-- The external CSV sink: whether `csv_prepare`'s `fopen` succeeds, whether
the reopen for append succeeds, and the rows (axis index paired with the
emitted values) appended so far. -/
structure FS where
  prepOk : Bool
  openOk : Bool
  rows : List (ℕ × List ℝ)

/-- In-place writes of `calc_amplitude_spectrum` (src/main.c:91-111) on the
caller's output array `a`, given the transform output `out` of `rfftw_one`
in halfcomplex order: `a[0] = sqrt(out[0]*out[0])` (DC); for
`1 ≤ k < (N+1)/2`, `a[k] = sqrt(out[k]*out[k] + out[N-k]*out[N-k])`; and if
`N` is even, `a[N/2] = sqrt(out[N/2]*out[N/2])` (Nyquist). -/
def calc_amplitude_spectrum (N : ℕ) (out : ℕ → ℝ) (a : List ℝ) : List ℝ :=
  let a0 := a.set 0 (Real.sqrt (out 0 * out 0))
  let a1 := (List.range' 1 ((N + 1) / 2 - 1)).foldl
    (fun acc k => acc.set k (Real.sqrt (out k * out k + out (N - k) * out (N - k)))) a0
  if N % 2 = 0 then a1.set (N / 2) (Real.sqrt (out (N / 2) * out (N / 2))) else a1

/-- Per-bin value computed by the max branch of `output_csv`
(src/main.c:255-264): `v` starts at `0`; on every loop iteration `j` the
entry `g j` replaces `v` when it exceeds `v` or `j == 0`, and then
`v /= (samplerate / 1000.0)` runs on that same iteration. -/
def csv_max_value (samplerate avg_int_in_sec : ℕ) (g : ℕ → ℝ) : ℝ :=
  (List.range avg_int_in_sec).foldl
    (fun v j => (if g j > v ∨ j = 0 then g j else v) / ((samplerate : ℝ) / 1000)) 0

/-- Per-bin value computed by the mean branch of `output_csv`
(src/main.c:266-273): the running sum over the window divided by
`avg_int_in_sec * samplerate / 1000.0`. -/
def csv_mean_value (samplerate avg_int_in_sec : ℕ) (g : ℕ → ℝ) : ℝ :=
  ((List.range avg_int_in_sec).foldl (fun v j => v + g j) 0) /
    (((avg_int_in_sec * samplerate : ℕ) : ℝ) / 1000)

/-- The row of `maxfreq + 1` values that `output_csv` (src/main.c:252-276)
writes for one axis, reading the window `amp` (window position → amplitude
spectrum) at bin `k` for `k = 0 .. maxfreq`. -/
def csv_row (samplerate maxfreq avg_int_in_sec : ℕ) (max_instead_of_avg : Bool)
    (amp : ℕ → List ℝ) : List ℝ :=
  (List.range (maxfreq + 1)).map (fun k =>
    if max_instead_of_avg then
      csv_max_value samplerate avg_int_in_sec (fun j => (amp j).getD k 0)
    else
      csv_mean_value samplerate avg_int_in_sec (fun j => (amp j).getD k 0))

/-- The `output_csv` function (src/main.c:211-282).  It reads the window
`s.ampspec dim` and appends one row to the CSV sink; it returns FALSE when
`csv_prepare` cannot open or create the file, or when the reopen for append
fails.  It assigns no program state, so `s` passes through unchanged. -/
def output_csv (samplerate maxfreq avg_int_in_sec : ℕ) (max_instead_of_avg : Bool)
    (dim : ℕ) (s : St) (fs : FS) : Bool × St × FS :=
  if fs.prepOk = false then (false, s, fs)
  else if fs.openOk = false then (false, s, fs)
  else (true, s,
    { fs with rows := fs.rows ++
        [(dim, csv_row samplerate maxfreq avg_int_in_sec max_instead_of_avg
          (s.ampspec dim))] })

/-- The modulo-subtraction loop in `process` (src/main.c:289):
`while ((ptr >= PIPELINE_LEN) && (ptr >= 0)) ptr = ptr - PIPELINE_LEN;`.
The second conjunct is always true for the non-negative values that occur;
`PIPELINE_LEN` is the positive constant 100, which the guard `0 < plen`
records so that the recursion terminates. -/
def wrapSub (ptr plen : ℕ) : ℕ :=
  if h : 0 < plen ∧ plen ≤ ptr then wrapSub (ptr - plen) plen else ptr
termination_by ptr
decreasing_by omega

/-- The body of the scan loop of `process` (src/main.c:286-313) at loop
index `k`: compute the slot index `ptr` from the write pointer, the loop
index and the lag constant `PIPELINE_LEN / 10`; if that slot is ready,
compute one amplitude spectrum per axis into the window at the current fill
index, advance the fill index, emit one CSV row per axis when the window
just filled, and clear the slot's ready flag.  `rfft` abstracts the
external `rfftw_one` transform backend. -/
def process_step (samplerate maxfreq avg_int_in_sec plen : ℕ)
    (max_instead_of_avg : Bool) (rfft : ℕ → (ℕ → ℝ) → ℕ → ℝ)
    (sfs : St × FS) (k : ℕ) : St × FS :=
  let s := sfs.1
  let fs := sfs.2
  let ptr := wrapSub (s.ibptr + k + plen / 10) plen
  if s.unproc.getD ptr false then
    let ptr := if plen ≤ ptr then 0 else ptr
    let spec1 : ℕ → ℕ → List ℝ := fun i j =>
      if i < 3 ∧ j = s.aind then
        calc_amplitude_spectrum samplerate (rfft samplerate (s.inbuf ptr i))
          (s.ampspec i j)
      else s.ampspec i j
    let s1 : St := { s with ampspec := spec1 }
    if s1.aind + 1 = avg_int_in_sec then
      let s2 : St := { s1 with aind := 0 }
      let o0 := output_csv samplerate maxfreq avg_int_in_sec max_instead_of_avg 0 s2 fs
      let o1 := output_csv samplerate maxfreq avg_int_in_sec max_instead_of_avg 1 o0.2.1 o0.2.2
      let o2 := output_csv samplerate maxfreq avg_int_in_sec max_instead_of_avg 2 o1.2.1 o1.2.2
      ({ o2.2.1 with unproc := o2.2.1.unproc.set ptr false }, o2.2.2)
    else
      ({ s1 with aind := s1.aind + 1, unproc := s1.unproc.set ptr false }, fs)
  else sfs

/-- The `process` function (src/main.c:284-314): one full scan over the
`PIPELINE_LEN` slots, threading the program state and the CSV sink. -/
def process (samplerate maxfreq avg_int_in_sec plen : ℕ) (max_instead_of_avg : Bool)
    (rfft : ℕ → (ℕ → ℝ) → ℕ → ℝ) (s : St) (fs : FS) : St × FS :=
  (List.range plen).foldl
    (process_step samplerate maxfreq avg_int_in_sec plen max_instead_of_avg rfft) (s, fs)

/-- One sample triple through the body of the `for k` loop of
`SpatialDataHandler` (src/main.c:381-412); the optional wav branch is the
excluded audio sink.  The acceleration triple `t` is written to
`inbuf[ibptr][i][rbufi]` for the three axes, the intra-second offset
advances, and once it reaches `samplerate` the active slot is marked ready,
`ibptr` advances (wrapping to 0 at `PIPELINE_LEN`), and "Realtime error!"
is printed when the new active slot is still marked ready. -/
def dataStep (samplerate plen : ℕ) (t : ℝ × ℝ × ℝ) (s : St) : St :=
  let inbuf1 : ℕ → ℕ → ℕ → ℝ := fun slot i idx =>
    if slot = s.ibptr ∧ idx = s.rbufi ∧ i < 3 then
      (if i = 0 then t.1 else if i = 1 then t.2.1 else t.2.2)
    else s.inbuf slot i idx
  if s.rbufi + 1 = samplerate then
    let unproc1 := s.unproc.set s.ibptr true
    let ib2 := if plen ≤ s.ibptr + 1 then 0 else s.ibptr + 1
    { s with
      inbuf := inbuf1
      rbufi := 0
      unproc := unproc1
      ibptr := ib2
      rtErrors := s.rtErrors + (if unproc1.getD ib2 false then 1 else 0) }
  else
    { s with
      inbuf := inbuf1
      rbufi := s.rbufi + 1 }

/-- The `SpatialDataHandler` callback (src/main.c:378-414): the loop over
the `count` delivered sample triples. -/
def SpatialDataHandler (samplerate plen : ℕ) (data : List (ℝ × ℝ × ℝ))
    (s : St) : St :=
  data.foldl (fun s t => dataStep samplerate plen t s) s

/-- The startup state: every buffer is zero-allocated by
`alloc_spec_buffers` (`g_new0`, src/main.c:140-161) and the integer cursors
are the zero-initialised globals. -/
def initSt (samplerate plen : ℕ) : St :=
  { rbufi := 0, ibptr := 0, aind := 0,
    unproc := List.replicate plen false,
    inbuf := fun _ _ _ => 0,
    ampspec := fun _ _ => List.replicate (samplerate / 2 + 1) 0,
    rtErrors := 0 }

/-- Number of slots currently marked ready. -/
def readyCount (s : St) : ℕ := s.unproc.count true

/-- Buffer geometry produced by `alloc_spec_buffers` (src/main.c:140-161):
`inbuf` is `PIPELINE_LEN × 3 × samplerate` and `ampspec` is
`3 × avg_int_in_sec × (samplerate / 2 + 1)`; a non-positive
`avg_int_in_sec` makes the corresponding `for` loop allocate zero window
columns. -/
structure Buffers where
  inbufSlots : ℕ
  inbufSamples : ℕ
  ampspecCols : ℕ
  ampspecBins : ℕ

/-- The `alloc_spec_buffers` function: it allocates the buffers from the
configuration values exactly as given, with no validity check. -/
def alloc_spec_buffers (samplerate plen : ℕ) (avg_int_in_sec : ℤ) : Buffers :=
  { inbufSlots := plen, inbufSamples := samplerate,
    ampspecCols := avg_int_in_sec.toNat, ampspecBins := samplerate / 2 + 1 }

/-- The startup path of `main`/`controlloop` (src/main.c:473-562): after
option parsing, `controlloop` waits for the device and then unconditionally
calls `open_output`, which is exactly `alloc_spec_buffers`; no value of
`maxfreq`, `avg_int_in_sec` or `samplerate` is compared against anything
before allocation, and the processing loop is then entered.  `maxfreq` is
carried through untouched: the code never compares it to `samplerate / 2`.
The result is `some` buffers for every configuration — there is no
rejection path. -/
def controlloop_start (samplerate plen : ℕ) (avg_int_in_sec maxfreq : ℤ) :
    Option Buffers :=
  some (alloc_spec_buffers samplerate plen avg_int_in_sec)

/-- Reference running-max loop in the spec's words (§4.3, max policy): on
every iteration `j` from `0` to `W - 1` the accumulator is replaced by the
`j`-th window entry whenever that entry exceeds it or `j = 0`, and is then
divided by `samplerate / 1000` on that same iteration; the value after `W`
iterations is emitted. -/
def spec_running_max (samplerate : ℕ) (g : ℕ → ℝ) : ℕ → ℝ
  | 0 => 0
  | j + 1 =>
    let v := spec_running_max samplerate g j
    (if g j > v ∨ j = 0 then g j else v) / ((samplerate : ℝ) / 1000)

/-- The scan start slot as claim C5 words it: `lag = PIPELINE_LEN / 10`
positions behind the current write pointer, that is, the slot the write
pointer passed `lag` advances ago. -/
def claim_scan_start (ibptr plen : ℕ) : ℕ := (ibptr + plen - plen / 10) % plen

/-! Helper lemmas about list reads and the fold loops. -/

lemma getD_map_range (n k : ℕ) (f : ℕ → ℝ) (h : k < n) :
    ((List.range n).map f).getD k 0 = f k := by
  rw [List.getD_eq_getElem _ _ (by simpa using h)]
  simp

lemma getD_set {α : Type} (a : List α) (i k : ℕ) (x d : α) :
    (a.set i x).getD k d = if i = k ∧ k < a.length then x else a.getD k d := by
  rw [List.getD_eq_getElem?_getD, List.getD_eq_getElem?_getD, List.getElem?_set]
  by_cases h : i = k
  · subst h
    by_cases h2 : i < a.length
    · simp [h2]
    · simp [h2, List.getElem?_eq_none (by omega : a.length ≤ i)]
  · simp [h]

lemma foldl_set_length (f : ℕ → ℝ) :
    ∀ (ks : List ℕ) (a : List ℝ),
      (ks.foldl (fun acc j => acc.set j (f j)) a).length = a.length := by
  intro ks
  induction ks with
  | nil => intro a; rfl
  | cons j ks ih => intro a; rw [List.foldl_cons, ih, List.length_set]

lemma foldl_set_getD (f : ℕ → ℝ) :
    ∀ (ks : List ℕ) (a : List ℝ) (k : ℕ),
      (ks.foldl (fun acc j => acc.set j (f j)) a).getD k 0 =
        if k ∈ ks ∧ k < a.length then f k else a.getD k 0 := by
  intro ks
  induction ks with
  | nil => intro a k; simp
  | cons j ks ih =>
    intro a k
    rw [List.foldl_cons, ih, List.length_set, getD_set]
    by_cases h3 : j = k
    · subst h3
      by_cases h2 : j < a.length
      · by_cases h1 : j ∈ ks <;> simp [h1, h2, List.mem_cons]
      · by_cases h1 : j ∈ ks <;> simp [h1, h2, List.mem_cons]
    · have h4 : ¬k = j := fun hh => h3 hh.symm
      by_cases h1 : k ∈ ks <;> by_cases h2 : k < a.length <;>
        simp [h1, h2, h3, h4, List.mem_cons]

lemma csv_max_value_eq_spec (samplerate : ℕ) (g : ℕ → ℝ) :
    ∀ avg, csv_max_value samplerate avg g = spec_running_max samplerate g avg := by
  intro avg
  induction avg with
  | zero => rfl
  | succ n ih =>
    rw [csv_max_value, List.range_succ, List.foldl_append]
    rw [csv_max_value] at ih
    simp only [List.foldl_cons, List.foldl_nil]
    rw [ih, spec_running_max]

lemma foldl_add_const (g : ℕ → ℝ) (c : ℝ) :
    ∀ n, (∀ j < n, g j = c) → (List.range n).foldl (fun v j => v + g j) 0 = n * c := by
  intro n
  induction n with
  | zero => simp
  | succ m ih =>
    intro hg
    rw [List.range_succ, List.foldl_append]
    simp only [List.foldl_cons, List.foldl_nil]
    rw [ih (fun j hj => hg j (by omega)), hg m (by omega)]
    push_cast
    ring

/-! Claim theorems. -/

/-- C1: with policy=max, the value emitted for every bin `k ≤ maxfreq` at
window completion equals the spec's reference running-max loop, in which on
every iteration `j` the accumulator is replaced by the `j`-th window entry
whenever it exceeds the accumulator or `j = 0` and is then divided by
`samplerate / 1000` on that same iteration, so the division compounds
across iterations. -/
theorem max_policy_matches_reference_loop (samplerate maxfreq avg_int_in_sec k : ℕ)
    (amp : ℕ → List ℝ) (hk : k ≤ maxfreq) :
    (csv_row samplerate maxfreq avg_int_in_sec true amp).getD k 0 =
      spec_running_max samplerate (fun j => (amp j).getD k 0) avg_int_in_sec := by
  rw [csv_row, getD_map_range _ _ _ (by omega)]
  simp only [if_true]
  exact csv_max_value_eq_spec samplerate _ avg_int_in_sec

/-- Witness for C1: the theorem applied at samplerate 2000, maxfreq 1,
window length 2, bin 0. -/
theorem max_policy_matches_reference_loop_witness :
    (csv_row 2000 1 2 true (fun j => [(j : ℝ) + 1])).getD 0 0 =
      spec_running_max 2000 (fun j => ([(j : ℝ) + 1]).getD 0 0) 2 :=
  max_policy_matches_reference_loop 2000 1 2 0 (fun j => [(j : ℝ) + 1]) (by omega)

/-- C3: with policy=mean, a window whose bin-`k` entries all equal `c`
emits `c / (samplerate / 1000)` at bin `k`: the per-bin sum divided by
`avg_int_in_sec * samplerate / 1000`. -/
theorem mean_policy_constant_window (samplerate maxfreq avg_int_in_sec k : ℕ)
    (amp : ℕ → List ℝ) (c : ℝ) (havg : 0 < avg_int_in_sec) (hk : k ≤ maxfreq)
    (hc : ∀ j < avg_int_in_sec, (amp j).getD k 0 = c) :
    (csv_row samplerate maxfreq avg_int_in_sec false amp).getD k 0 =
      c / ((samplerate : ℝ) / 1000) := by
  rw [csv_row, getD_map_range _ _ _ (by omega)]
  simp only [Bool.false_eq_true, if_false]
  rw [csv_mean_value, foldl_add_const _ _ _ hc]
  rcases Nat.eq_zero_or_pos samplerate with h0 | hpos
  · subst h0; simp
  · have hW : (avg_int_in_sec : ℝ) ≠ 0 := Nat.cast_ne_zero.mpr (by omega)
    have hR : (samplerate : ℝ) ≠ 0 := Nat.cast_ne_zero.mpr (by omega)
    push_cast
    field_simp
    ring

/-- Witness for C3: samplerate 500, window length 4, constant value 6. -/
theorem mean_policy_constant_window_witness :
    (csv_row 500 2 4 false (fun _ => [0, (6 : ℝ)])).getD 1 0 =
      (6 : ℝ) / ((500 : ℝ) / 1000) :=
  mean_policy_constant_window 500 2 4 1 (fun _ => [0, (6 : ℝ)]) 6 (by omega) (by omega)
    (fun j _ => rfl)

lemma calc_amplitude_spectrum_length (N : ℕ) (out : ℕ → ℝ) (a : List ℝ) :
    (calc_amplitude_spectrum N out a).length = a.length := by
  rw [calc_amplitude_spectrum]
  by_cases hN : N % 2 = 0 <;>
    simp [hN, foldl_set_length, List.length_set]

lemma calc_amplitude_spectrum_getD (N : ℕ) (out : ℕ → ℝ) (a : List ℝ) (k : ℕ)
    (hk : k < a.length) :
    (calc_amplitude_spectrum N out a).getD k 0 =
      if N % 2 = 0 ∧ k = N / 2 then Real.sqrt (out (N / 2) * out (N / 2))
      else if 1 ≤ k ∧ k < (N + 1) / 2 then
        Real.sqrt (out k * out k + out (N - k) * out (N - k))
      else if k = 0 then Real.sqrt (out 0 * out 0)
      else a.getD k 0 := by
  have hmem : (k ∈ List.range' 1 ((N + 1) / 2 - 1)) ↔ (1 ≤ k ∧ k < (N + 1) / 2) := by
    rw [List.mem_range'_1]; omega
  rw [calc_amplitude_spectrum]
  by_cases hN : N % 2 = 0
  · simp only [hN, if_true]
    rw [getD_set, foldl_set_length, List.length_set, foldl_set_getD, List.length_set,
      getD_set]
    by_cases hk2 : k = N / 2
    · subst hk2
      simp [hk, hN]
    · have hk2' : ¬(N / 2 = k) := fun hh => hk2 hh.symm
      by_cases hk3 : 1 ≤ k ∧ k < (N + 1) / 2
      · simp [hk2, hk2', hk, hN, hmem.mpr hk3, hk3]
      · have hk3' : ¬(k ∈ List.range' 1 ((N + 1) / 2 - 1)) := fun hh => hk3 (hmem.mp hh)
        by_cases hk4 : k = 0
        · subst hk4
          have h5 : ¬(N / 2 = 0) := fun hh => hk2 hh.symm
          simp [hk, hN, h5, hk2]
        · have hk4' : ¬(0 = k) := fun hh => hk4 hh.symm
          simp [hk2, hk2', hk, hN, hk3, hk3', hk4, hk4']
  · simp only [hN, if_false]
    rw [foldl_set_getD, List.length_set, getD_set]
    have hN' : ¬(N % 2 = 0 ∧ k = N / 2) := fun hh => hN hh.1
    by_cases hk3 : 1 ≤ k ∧ k < (N + 1) / 2
    · simp [hk, hN', hmem.mpr hk3, hk3]
    · have hk3' : ¬(k ∈ List.range' 1 ((N + 1) / 2 - 1)) := fun hh => hk3 (hmem.mp hh)
      by_cases hk4 : k = 0
      · subst hk4
        simp [hk, hN', hk3, hk3']
      · have hk4' : ¬(0 = k) := fun hh => hk4 hh.symm
        simp [hk, hN', hk3, hk3', hk4, hk4']

/-- C4: on the zero-allocated output buffer, `calc_amplitude_spectrum`
produces exactly `N / 2 + 1` bins; bin 0 is the absolute value of the DC
coefficient; every bin `k` with `0 < k < N / 2` combines the
conjugate-symmetric pair `out k`, `out (N - k)`; bin `N / 2` is the
absolute value of the Nyquist coefficient for even `N`; and every bin is
non-negative. -/
theorem amplitude_spectrum_bins (N : ℕ) (out : ℕ → ℝ) :
    (calc_amplitude_spectrum N out (List.replicate (N / 2 + 1) 0)).length = N / 2 + 1 ∧
    (calc_amplitude_spectrum N out (List.replicate (N / 2 + 1) 0)).getD 0 0 = |out 0| ∧
    (∀ k, 0 < k → 2 * k < N →
      (calc_amplitude_spectrum N out (List.replicate (N / 2 + 1) 0)).getD k 0 =
        Real.sqrt (out k * out k + out (N - k) * out (N - k))) ∧
    (N % 2 = 0 →
      (calc_amplitude_spectrum N out (List.replicate (N / 2 + 1) 0)).getD (N / 2) 0 =
        |out (N / 2)|) ∧
    (∀ k, 0 ≤ (calc_amplitude_spectrum N out (List.replicate (N / 2 + 1) 0)).getD k 0) := by
  have hlen : (List.replicate (N / 2 + 1) (0 : ℝ)).length = N / 2 + 1 :=
    List.length_replicate _ _
  refine ⟨by rw [calc_amplitude_spectrum_length, hlen], ?_, ?_, ?_, ?_⟩
  · rw [calc_amplitude_spectrum_getD N out _ 0 (by omega)]
    by_cases hN0 : N % 2 = 0 ∧ 0 = N / 2
    · rw [if_pos hN0, ← hN0.2, Real.sqrt_mul_self_eq_abs]
    · have h2 : ¬(1 ≤ 0 ∧ 0 < (N + 1) / 2) := by omega
      rw [if_neg hN0, if_neg h2, if_pos rfl, Real.sqrt_mul_self_eq_abs]
  · intro k hk0 hk2
    rw [calc_amplitude_spectrum_getD N out _ k (by omega)]
    have h1 : ¬(N % 2 = 0 ∧ k = N / 2) := by omega
    have h2 : 1 ≤ k ∧ k < (N + 1) / 2 := by omega
    simp [h1, h2]
  · intro hN
    rw [calc_amplitude_spectrum_getD N out _ (N / 2) (by omega)]
    simp only [hN, and_self, if_true, true_and]
    rw [Real.sqrt_mul_self_eq_abs]
  · intro k
    by_cases hk : k < N / 2 + 1
    · rw [calc_amplitude_spectrum_getD N out _ k (by omega)]
      split_ifs with h1 h2 h3
      · exact Real.sqrt_nonneg _
      · exact Real.sqrt_nonneg _
      · exact Real.sqrt_nonneg _
      · rw [List.getD_eq_getElem _ _ (by omega), List.getElem_replicate]
    · rw [List.getD_eq_default]
      rw [calc_amplitude_spectrum_length, hlen]
      omega

/-- C6 (configuration validation): the startup path of the program performs
no configuration check at all.  The invalid configuration
`avg_int_in_sec = 0` (violating `W > 0`) together with `maxfreq = 600`
(violating `maxfreq ≤ samplerate / 2` for the fixed samplerate 1000) is
accepted: `controlloop_start` allocates the buffers — with zero window
columns and 501 spectrum bins, though `output_csv` would read bins up to
600 — and the processing loop is entered. -/
theorem startup_accepts_invalid_config :
    controlloop_start 1000 100 0 600 = some (alloc_spec_buffers 1000 100 0) ∧
    ((1000 : ℤ) / 2 < 600 ∧ (0 : ℤ) ≤ 0) ∧
    (alloc_spec_buffers 1000 100 0).ampspecCols = 0 ∧
    (alloc_spec_buffers 1000 100 0).ampspecBins = 501 ∧ 501 < 600 + 1 :=
  ⟨rfl, ⟨by norm_num, le_refl 0⟩, rfl, rfl, by norm_num⟩

lemma wrapSub_eq_mod (plen : ℕ) (hp : 0 < plen) : ∀ x, wrapSub x plen = x % plen := by
  intro x
  induction x using Nat.strong_induction_on with
  | _ x ih =>
    rw [wrapSub]
    by_cases h : plen ≤ x
    · rw [dif_pos ⟨hp, h⟩, ih (x - plen) (by omega), Nat.mod_eq_sub_mod h]
    · rw [dif_neg (fun hh => h hh.2), Nat.mod_eq_of_lt (by omega)]

/-- Normal form of one scan-loop iteration of `process` for a positive
pipeline length: the modulo-subtraction loop is a modulo, the re-check of
`ptr` inside the ready branch is dead, and the three `output_csv` calls
either all fail (sink untouched) or append the three axis rows. -/
lemma process_step_eq (samplerate maxfreq avg_int_in_sec plen : ℕ)
    (max_instead_of_avg : Bool) (rfft : ℕ → (ℕ → ℝ) → ℕ → ℝ)
    (s : St) (fs : FS) (k : ℕ) (hp : 0 < plen) :
    process_step samplerate maxfreq avg_int_in_sec plen max_instead_of_avg rfft
        (s, fs) k =
      (let ptr := (s.ibptr + k + plen / 10) % plen
       if s.unproc.getD ptr false then
         let spec1 : ℕ → ℕ → List ℝ := fun i j =>
           if i < 3 ∧ j = s.aind then
             calc_amplitude_spectrum samplerate (rfft samplerate (s.inbuf ptr i))
               (s.ampspec i j)
           else s.ampspec i j
         if s.aind + 1 = avg_int_in_sec then
           ({ s with
              ampspec := spec1
              aind := 0
              unproc := s.unproc.set ptr false },
            if fs.prepOk = false then fs
            else if fs.openOk = false then fs
            else { fs with rows := fs.rows ++
              [(0, csv_row samplerate maxfreq avg_int_in_sec max_instead_of_avg (spec1 0)),
               (1, csv_row samplerate maxfreq avg_int_in_sec max_instead_of_avg (spec1 1)),
               (2, csv_row samplerate maxfreq avg_int_in_sec max_instead_of_avg (spec1 2))] })
         else
           ({ s with
              ampspec := spec1
              aind := s.aind + 1
              unproc := s.unproc.set ptr false }, fs)
       else (s, fs)) := by
  have hlt : (s.ibptr + k + plen / 10) % plen < plen := Nat.mod_lt _ hp
  have hdead : ¬plen ≤ (s.ibptr + k + plen / 10) % plen := by omega
  simp only [process_step, wrapSub_eq_mod plen hp]
  rw [if_neg hdead]
  by_cases hu : s.unproc.getD ((s.ibptr + k + plen / 10) % plen) false = true
  · rw [if_pos hu, if_pos hu]
    by_cases ha : s.aind + 1 = avg_int_in_sec
    · rw [if_pos ha, if_pos ha]
      by_cases h1 : fs.prepOk = false
      · simp [output_csv, h1]
      · by_cases h2 : fs.openOk = false
        · simp [output_csv, h1, h2]
        · simp [output_csv, h1, h2, List.append_assoc]
    · rw [if_neg ha, if_neg ha]
  · rw [if_neg hu, if_neg hu]

lemma output_csv_state_frame (samplerate maxfreq avg_int_in_sec : ℕ)
    (max_instead_of_avg : Bool) (dim : ℕ) (s : St) (fs : FS) :
    (output_csv samplerate maxfreq avg_int_in_sec max_instead_of_avg dim s fs).2.1 = s := by
  rw [output_csv]
  by_cases h1 : fs.prepOk = false
  · rw [if_pos h1]
  · rw [if_neg h1]
    by_cases h2 : fs.openOk = false
    · rw [if_pos h2]
    · rw [if_neg h2]

lemma process_step_fst_sink_independent (samplerate maxfreq avg_int_in_sec plen : ℕ)
    (max_instead_of_avg : Bool) (rfft : ℕ → (ℕ → ℝ) → ℕ → ℝ)
    (k : ℕ) (s : St) (fs fs2 : FS) :
    (process_step samplerate maxfreq avg_int_in_sec plen max_instead_of_avg rfft
        (s, fs) k).1 =
      (process_step samplerate maxfreq avg_int_in_sec plen max_instead_of_avg rfft
        (s, fs2) k).1 := by
  simp only [process_step]
  by_cases hu : s.unproc.getD (wrapSub (s.ibptr + k + plen / 10) plen) false = true
  · rw [if_pos hu, if_pos hu]
    by_cases ha : s.aind + 1 = avg_int_in_sec
    · rw [if_pos ha, if_pos ha]
      simp [output_csv_state_frame]
    · rw [if_neg ha, if_neg ha]
  · rw [if_neg hu, if_neg hu]

lemma foldl_process_fst_sink_independent (samplerate maxfreq avg_int_in_sec plen : ℕ)
    (max_instead_of_avg : Bool) (rfft : ℕ → (ℕ → ℝ) → ℕ → ℝ) :
    ∀ (ks : List ℕ) (p q : St × FS), p.1 = q.1 →
      ((ks.foldl (process_step samplerate maxfreq avg_int_in_sec plen
          max_instead_of_avg rfft) p).1 =
        (ks.foldl (process_step samplerate maxfreq avg_int_in_sec plen
          max_instead_of_avg rfft) q).1) := by
  intro ks
  induction ks with
  | nil => intro p q h; simpa using h
  | cons k ks ih =>
    intro p q h
    rw [List.foldl_cons, List.foldl_cons]
    apply ih
    obtain ⟨s, fs⟩ := p
    obtain ⟨s2, fs2⟩ := q
    have h' : s = s2 := h
    subst h'
    exact process_step_fst_sink_independent samplerate maxfreq avg_int_in_sec plen
      max_instead_of_avg rfft k s fs fs2

/-- C9: when the CSV sink cannot be opened or written, `output_csv` returns
FALSE to its caller as a recoverable failure (`process` ignores the result
and continues); in every case it leaves the program state — in particular
the per-axis window spectra and the fill index — unchanged, and the state
computed by `process` is independent of the sink entirely, so the next
cycle is unaffected. -/
theorem emit_failure_recoverable_and_state_preserved
    (samplerate maxfreq avg_int_in_sec plen : ℕ) (max_instead_of_avg : Bool)
    (rfft : ℕ → (ℕ → ℝ) → ℕ → ℝ) (dim : ℕ) (s : St) (fs fs2 : FS) :
    ((fs.prepOk = false ∨ fs.openOk = false) →
      (output_csv samplerate maxfreq avg_int_in_sec max_instead_of_avg dim s fs).1 =
        false) ∧
    (output_csv samplerate maxfreq avg_int_in_sec max_instead_of_avg dim s fs).2.1 = s ∧
    (process samplerate maxfreq avg_int_in_sec plen max_instead_of_avg rfft s fs).1 =
      (process samplerate maxfreq avg_int_in_sec plen max_instead_of_avg rfft s fs2).1 := by
  refine ⟨?_, output_csv_state_frame samplerate maxfreq avg_int_in_sec
    max_instead_of_avg dim s fs, ?_⟩
  · intro h
    rw [output_csv]
    rcases h with h | h
    · rw [if_pos h]
    · by_cases h1 : fs.prepOk = false
      · rw [if_pos h1]
      · rw [if_neg h1, if_pos h]
  · simp only [process]
    exact foldl_process_fst_sink_independent samplerate maxfreq avg_int_in_sec plen
      max_instead_of_avg rfft (List.range plen) (s, fs) (s, fs2) rfl

/-- Witness for C9: a sink whose `fopen` fails makes `output_csv` return
FALSE. -/
theorem emit_failure_recoverable_witness :
    (output_csv 1000 0 1 false 0 (initSt 1000 1) ⟨false, true, []⟩).1 = false :=
  (emit_failure_recoverable_and_state_preserved 1000 0 1 1 false (fun _ _ _ => 0) 0
    (initSt 1000 1) ⟨false, true, []⟩ ⟨true, true, []⟩).1 (Or.inl rfl)

lemma process_step_aind_lt (samplerate maxfreq avg_int_in_sec plen : ℕ)
    (max_instead_of_avg : Bool) (rfft : ℕ → (ℕ → ℝ) → ℕ → ℝ)
    (havg : 0 < avg_int_in_sec) (k : ℕ) (s : St) (fs : FS)
    (h : s.aind < avg_int_in_sec) :
    (process_step samplerate maxfreq avg_int_in_sec plen max_instead_of_avg rfft
        (s, fs) k).1.aind < avg_int_in_sec := by
  simp only [process_step]
  by_cases hu : s.unproc.getD (wrapSub (s.ibptr + k + plen / 10) plen) false = true
  · rw [if_pos hu]
    by_cases ha : s.aind + 1 = avg_int_in_sec
    · rw [if_pos ha]
      simpa [output_csv_state_frame] using havg
    · rw [if_neg ha]
      show s.aind + 1 < avg_int_in_sec
      omega
  · rw [if_neg hu]
    exact h

lemma foldl_process_aind_lt (samplerate maxfreq avg_int_in_sec plen : ℕ)
    (max_instead_of_avg : Bool) (rfft : ℕ → (ℕ → ℝ) → ℕ → ℝ)
    (havg : 0 < avg_int_in_sec) :
    ∀ (ks : List ℕ) (p : St × FS), p.1.aind < avg_int_in_sec →
      (ks.foldl (process_step samplerate maxfreq avg_int_in_sec plen
        max_instead_of_avg rfft) p).1.aind < avg_int_in_sec := by
  intro ks
  induction ks with
  | nil => intro p h; simpa using h
  | cons k ks ih =>
    intro p h
    rw [List.foldl_cons]
    apply ih
    obtain ⟨s, fs⟩ := p
    exact process_step_aind_lt samplerate maxfreq avg_int_in_sec plen
      max_instead_of_avg rfft havg k s fs h

/-- C7: the window fill index stays in `[0, avg_int_in_sec)` across every
invocation of `process`, so no state with fill index `≥ avg_int_in_sec` is
observable between operations; each processed slot advances the index by
one, except that the step that would reach `avg_int_in_sec` emits one row
per axis (axes 0, 1 and 2, given a working sink) and resets the index to 0
instead, and a step that does not complete the window emits nothing. -/
theorem window_fill_index_invariant (samplerate maxfreq avg_int_in_sec plen : ℕ)
    (max_instead_of_avg : Bool) (rfft : ℕ → (ℕ → ℝ) → ℕ → ℝ)
    (havg : 0 < avg_int_in_sec) (hp : 0 < plen) :
    (∀ s fs, s.aind < avg_int_in_sec →
      (process samplerate maxfreq avg_int_in_sec plen max_instead_of_avg rfft
        s fs).1.aind < avg_int_in_sec) ∧
    (∀ k (s : St) (fs : FS), s.aind < avg_int_in_sec →
      s.unproc.getD ((s.ibptr + k + plen / 10) % plen) false = true →
      ((process_step samplerate maxfreq avg_int_in_sec plen max_instead_of_avg rfft
          (s, fs) k).1.aind =
        if s.aind + 1 = avg_int_in_sec then 0 else s.aind + 1) ∧
      (s.aind + 1 = avg_int_in_sec → fs.prepOk = true → fs.openOk = true →
        ∃ r0 r1 r2,
          (process_step samplerate maxfreq avg_int_in_sec plen max_instead_of_avg rfft
            (s, fs) k).2.rows = fs.rows ++ [(0, r0), (1, r1), (2, r2)]) ∧
      (s.aind + 1 ≠ avg_int_in_sec →
        (process_step samplerate maxfreq avg_int_in_sec plen max_instead_of_avg rfft
          (s, fs) k).2 = fs)) := by
  constructor
  · intro s fs h
    simp only [process]
    exact foldl_process_aind_lt samplerate maxfreq avg_int_in_sec plen
      max_instead_of_avg rfft havg (List.range plen) (s, fs) h
  · intro k s fs ha hu
    rw [process_step_eq samplerate maxfreq avg_int_in_sec plen max_instead_of_avg rfft
      s fs k hp]
    simp only
    rw [if_pos hu]
    by_cases hw : s.aind + 1 = avg_int_in_sec
    · rw [if_pos hw]
      refine ⟨by rw [if_pos hw], ?_, fun hn => absurd hw hn⟩
      intro _ hfs1 hfs2
      have h1 : ¬fs.prepOk = false := by rw [hfs1]; simp
      have h2 : ¬fs.openOk = false := by rw [hfs2]; simp
      rw [if_neg h1, if_neg h2]
      exact ⟨_, _, _, rfl⟩
    · rw [if_neg hw]
      exact ⟨by rw [if_neg hw], fun hn => absurd hn hw, fun _ => rfl⟩

/-- Witness for C7: the invariant at a concrete startup state. -/
theorem window_fill_index_invariant_witness :
    (process 1000 0 1 1 false (fun _ _ _ => 0) (initSt 1000 1)
      ⟨true, true, []⟩).1.aind < 1 :=
  (window_fill_index_invariant 1000 0 1 1 false (fun _ _ _ => 0) (by omega)
    (by omega)).1 (initSt 1000 1) ⟨true, true, []⟩ (by decide)

/-- C5 (amended): one invocation of `process` scans all `plen` slots in
increasing circular order starting `plen / 10` positions AHEAD of the
current write pointer — the `k`-th visited slot is
`(ibptr + plen / 10 + k) % plen`, equivalently `plen - plen / 10` positions
behind the pointer — and every visited slot whose ready flag is set is
processed (one spectrum per axis is computed into the window at the current
fill index) and has its ready flag cleared afterwards, while a visited slot
whose flag is clear is left untouched. -/
theorem drain_scan_order_and_clearing (samplerate maxfreq avg_int_in_sec plen : ℕ)
    (max_instead_of_avg : Bool) (rfft : ℕ → (ℕ → ℝ) → ℕ → ℝ) (hp : 0 < plen) :
    (∀ ibptr k, wrapSub (ibptr + k + plen / 10) plen =
      (ibptr + plen / 10 + k) % plen) ∧
    (∀ k (s : St) (fs : FS),
      s.unproc.getD ((s.ibptr + plen / 10 + k) % plen) false = true →
      ((process_step samplerate maxfreq avg_int_in_sec plen max_instead_of_avg rfft
          (s, fs) k).1.unproc =
        s.unproc.set ((s.ibptr + plen / 10 + k) % plen) false) ∧
      (∀ i, i < 3 →
        (process_step samplerate maxfreq avg_int_in_sec plen max_instead_of_avg rfft
            (s, fs) k).1.ampspec i s.aind =
          calc_amplitude_spectrum samplerate
            (rfft samplerate (s.inbuf ((s.ibptr + plen / 10 + k) % plen) i))
            (s.ampspec i s.aind))) ∧
    (∀ k (s : St) (fs : FS),
      s.unproc.getD ((s.ibptr + plen / 10 + k) % plen) false = false →
      process_step samplerate maxfreq avg_int_in_sec plen max_instead_of_avg rfft
        (s, fs) k = (s, fs)) := by
  have harith : ∀ a k : ℕ, a + plen / 10 + k = a + k + plen / 10 := by omega
  refine ⟨?_, ?_, ?_⟩
  · intro ibptr k
    rw [wrapSub_eq_mod plen hp, harith]
  · intro k s fs hu
    rw [harith] at hu
    rw [process_step_eq samplerate maxfreq avg_int_in_sec plen max_instead_of_avg rfft
      s fs k hp]
    simp only
    rw [if_pos hu]
    constructor
    · by_cases hw : s.aind + 1 = avg_int_in_sec
      · rw [if_pos hw, harith]
      · rw [if_neg hw, harith]
    · intro i hi
      by_cases hw : s.aind + 1 = avg_int_in_sec
      · rw [if_pos hw]
        show (if i < 3 ∧ s.aind = s.aind then _ else _) = _
        rw [if_pos ⟨hi, rfl⟩, harith]
      · rw [if_neg hw]
        show (if i < 3 ∧ s.aind = s.aind then _ else _) = _
        rw [if_pos ⟨hi, rfl⟩, harith]
  · intro k s fs hu
    rw [harith] at hu
    rw [process_step_eq samplerate maxfreq avg_int_in_sec plen max_instead_of_avg rfft
      s fs k hp]
    simp only
    rw [if_neg (by rw [hu]; simp)]

/-- Witness for C5 (amended): the pointer arithmetic at `ibptr = 0`,
`plen = 100`, loop index 0. -/
theorem drain_scan_order_witness :
    wrapSub (0 + 0 + 100 / 10) 100 = (0 + 100 / 10 + 0) % 100 :=
  (drain_scan_order_and_clearing 1000 0 1 100 false (fun _ _ _ => 0) (by omega)).1 0 0

/-- Counterexample for C5 as stated: the claim places the scan start `lag`
positions BEHIND the write pointer, which for `ibptr = 0`, `plen = 100`,
`lag = 10` is slot 90; the code's first visited slot (loop index 0) is
slot 10. -/
theorem drain_scan_start_counterexample :
    wrapSub (0 + 0 + 100 / 10) 100 = 10 ∧ claim_scan_start 0 100 = 90 ∧
      (10 : ℕ) ≠ 90 := by
  refine ⟨?_, by norm_num [claim_scan_start], by omega⟩
  rw [wrapSub]
  norm_num

/-- Witness for C4: the symmetric-pair bin at N = 4, k = 1. -/
theorem amplitude_spectrum_bins_witness :
    (calc_amplitude_spectrum 4 (fun _ => (2 : ℝ)) (List.replicate (4 / 2 + 1) 0)).getD 1 0 =
      Real.sqrt ((2 : ℝ) * 2 + 2 * 2) ∧ 0 < 1 ∧ 2 * 1 < 4 :=
  ⟨(amplitude_spectrum_bins 4 (fun _ => (2 : ℝ))).2.2.1 1 (by omega) (by omega),
    by omega, by omega⟩

/-! Lemmas about the ingest handler. -/

lemma run_cons (samplerate plen : ℕ) (t : ℝ × ℝ × ℝ) (l : List (ℝ × ℝ × ℝ))
    (s : St) :
    SpatialDataHandler samplerate plen (t :: l) s =
      SpatialDataHandler samplerate plen l (dataStep samplerate plen t s) := rfl

lemma dataStep_not_boundary (samplerate plen : ℕ) (t : ℝ × ℝ × ℝ) (s : St)
    (hne : ¬s.rbufi + 1 = samplerate) :
    (dataStep samplerate plen t s).rbufi = s.rbufi + 1 ∧
    (dataStep samplerate plen t s).ibptr = s.ibptr ∧
    (dataStep samplerate plen t s).aind = s.aind ∧
    (dataStep samplerate plen t s).unproc = s.unproc ∧
    (dataStep samplerate plen t s).ampspec = s.ampspec ∧
    (dataStep samplerate plen t s).rtErrors = s.rtErrors := by
  simp [dataStep, hne]

lemma run_under_second (samplerate plen : ℕ) :
    ∀ (l : List (ℝ × ℝ × ℝ)) (s : St), s.rbufi + l.length < samplerate →
      ((SpatialDataHandler samplerate plen l s).rbufi = s.rbufi + l.length ∧
       (SpatialDataHandler samplerate plen l s).ibptr = s.ibptr ∧
       (SpatialDataHandler samplerate plen l s).aind = s.aind ∧
       (SpatialDataHandler samplerate plen l s).unproc = s.unproc ∧
       (SpatialDataHandler samplerate plen l s).ampspec = s.ampspec ∧
       (SpatialDataHandler samplerate plen l s).rtErrors = s.rtErrors) := by
  intro l
  induction l with
  | nil =>
    intro s h
    exact ⟨by simp [SpatialDataHandler], rfl, rfl, rfl, rfl, rfl⟩
  | cons t l ih =>
    intro s h
    have hlen : (t :: l).length = l.length + 1 := rfl
    rw [hlen] at h
    have hne : ¬s.rbufi + 1 = samplerate := by omega
    obtain ⟨d1, d2, d3, d4, d5, d6⟩ := dataStep_not_boundary samplerate plen t s hne
    rw [run_cons]
    obtain ⟨i1, i2, i3, i4, i5, i6⟩ :=
      ih (dataStep samplerate plen t s) (by rw [d1]; omega)
    refine ⟨?_, ?_, ?_, ?_, ?_, ?_⟩
    · rw [i1, d1, hlen]; omega
    · rw [i2, d2]
    · rw [i3, d3]
    · rw [i4, d4]
    · rw [i5, d5]
    · rw [i6, d6]

lemma run_full_second (samplerate plen : ℕ) (hsr : 0 < samplerate)
    (l : List (ℝ × ℝ × ℝ)) (s : St) (hlen : l.length = samplerate)
    (hr : s.rbufi = 0) :
    (SpatialDataHandler samplerate plen l s).rbufi = 0 ∧
    (SpatialDataHandler samplerate plen l s).ibptr =
      (if plen ≤ s.ibptr + 1 then 0 else s.ibptr + 1) ∧
    (SpatialDataHandler samplerate plen l s).aind = s.aind ∧
    (SpatialDataHandler samplerate plen l s).unproc = s.unproc.set s.ibptr true ∧
    (SpatialDataHandler samplerate plen l s).ampspec = s.ampspec ∧
    (SpatialDataHandler samplerate plen l s).rtErrors = s.rtErrors +
      (if (s.unproc.set s.ibptr true).getD
          (if plen ≤ s.ibptr + 1 then 0 else s.ibptr + 1) false then 1 else 0) := by
  have hne : l ≠ [] := by
    intro hnil
    rw [hnil] at hlen
    simp at hlen
    omega
  have hsplit := List.dropLast_append_getLast hne
  have hrun : SpatialDataHandler samplerate plen l s =
      dataStep samplerate plen (l.getLast hne)
        (SpatialDataHandler samplerate plen l.dropLast s) := by
    conv_lhs => rw [← hsplit]
    rw [SpatialDataHandler, SpatialDataHandler, List.foldl_concat]
  obtain ⟨i1, i2, i3, i4, i5, i6⟩ := run_under_second samplerate plen l.dropLast s
    (by rw [List.length_dropLast, hlen, hr]; omega)
  have hb : (SpatialDataHandler samplerate plen l.dropLast s).rbufi + 1 = samplerate := by
    rw [i1, hr, List.length_dropLast, hlen]; omega
  rw [hrun]
  simp only [dataStep, if_pos hb]
  refine ⟨trivial, ?_, i3, ?_, i5, ?_⟩
  · rw [i2]
  · rw [i4, i2]
  · rw [i6, i4, i2]

lemma succ_mod_if (n plen : ℕ) (hp : 0 < plen) :
    (if plen ≤ n % plen + 1 then 0 else n % plen + 1) = (n + 1) % plen := by
  have hlt : n % plen < plen := Nat.mod_lt n hp
  have key : (n + 1) % plen = (n % plen + 1) % plen := by
    conv_lhs => rw [← Nat.mod_add_div n plen]
    rw [Nat.add_right_comm, Nat.add_mul_mod_self_left]
  by_cases hc : plen ≤ n % plen + 1
  · have he : n % plen + 1 = plen := by omega
    rw [if_pos hc, key, he, Nat.mod_self]
  · rw [if_neg hc, key, Nat.mod_eq_of_lt (show n % plen + 1 < plen by omega)]

/-- State of the pipeline after `n` whole seconds of ingestion with no
draining: the write offset is 0, the write pointer is `n % plen`, the first
`min n plen` slots are ready, and `n - (plen - 1)` realtime errors have
been reported (none while `n < plen`, then one at the completion of every
second from second `plen` on). -/
lemma seconds_state (samplerate plen : ℕ) (hsr : 0 < samplerate) (hp : 0 < plen) :
    ∀ (n : ℕ) (l : List (ℝ × ℝ × ℝ)), l.length = n * samplerate →
      ((SpatialDataHandler samplerate plen l (initSt samplerate plen)).rbufi = 0 ∧
       (SpatialDataHandler samplerate plen l (initSt samplerate plen)).ibptr =
         n % plen ∧
       (SpatialDataHandler samplerate plen l (initSt samplerate plen)).unproc.length =
         plen ∧
       (∀ j, j < plen →
         (SpatialDataHandler samplerate plen l (initSt samplerate plen)).unproc.getD
           j false = decide (j < min n plen)) ∧
       (SpatialDataHandler samplerate plen l (initSt samplerate plen)).rtErrors =
         n - (plen - 1)) := by
  intro n
  induction n with
  | zero =>
    intro l hl
    have hnil : l = [] := List.eq_nil_of_length_eq_zero (by rw [hl]; ring)
    subst hnil
    refine ⟨rfl, by simp [SpatialDataHandler, initSt], by simp [SpatialDataHandler, initSt], ?_, by simp [SpatialDataHandler, initSt]⟩
    intro j hj
    simp only [SpatialDataHandler, List.foldl_nil, initSt]
    rw [List.getD_eq_getElem _ _ (by simpa using hj), List.getElem_replicate]
    simp
  | succ n ih =>
    intro l hl
    have hsplit : List.take (n * samplerate) l ++ List.drop (n * samplerate) l = l :=
      List.take_append_drop _ _
    have hlt : n * samplerate ≤ l.length := by rw [hl, Nat.succ_mul]; omega
    have hlen1 : (List.take (n * samplerate) l).length = n * samplerate := by
      rw [List.length_take]; omega
    have hlen2 : (List.drop (n * samplerate) l).length = samplerate := by
      rw [List.length_drop, hl, Nat.succ_mul]; omega
    have hrun : SpatialDataHandler samplerate plen l (initSt samplerate plen) =
        SpatialDataHandler samplerate plen (List.drop (n * samplerate) l)
          (SpatialDataHandler samplerate plen (List.take (n * samplerate) l)
            (initSt samplerate plen)) := by
      conv_lhs => rw [← hsplit]
      rw [SpatialDataHandler, SpatialDataHandler, SpatialDataHandler, List.foldl_append]
    obtain ⟨i1, i2, i3, i4, i5⟩ := ih (List.take (n * samplerate) l) hlen1
    obtain ⟨f1, f2, f3, f4, f5, f6⟩ := run_full_second samplerate plen hsr
      (List.drop (n * samplerate) l)
      (SpatialDataHandler samplerate plen (List.take (n * samplerate) l)
        (initSt samplerate plen)) hlen2 i1
    rw [hrun]
    have hmodlt : n % plen < plen := Nat.mod_lt n hp
    have hsucclt : (n + 1) % plen < plen := Nat.mod_lt (n + 1) hp
    have hunproc : ∀ j, j < plen →
        (SpatialDataHandler samplerate plen (List.drop (n * samplerate) l)
          (SpatialDataHandler samplerate plen (List.take (n * samplerate) l)
            (initSt samplerate plen))).unproc.getD j false =
          decide (j < min (n + 1) plen) := by
      intro j hj
      rw [f4, i2, getD_set, i3]
      by_cases hje : n % plen = j
      · rw [if_pos ⟨hje, hj⟩]
        have hj1 : j < min (n + 1) plen := by
          have := Nat.mod_le n plen
          omega
        simp [hj1]
      · rw [if_neg (fun hh => hje hh.1)]
        rw [i4 j hj]
        by_cases hnp : n < plen
        · have hmod : n % plen = n := Nat.mod_eq_of_lt hnp
          rw [hmod] at hje
          exact decide_eq_decide.mpr (by omega)
        · exact decide_eq_decide.mpr (by omega)
    have hgetD : ((SpatialDataHandler samplerate plen (List.take (n * samplerate) l)
          (initSt samplerate plen)).unproc.set (n % plen) true).getD
        ((n + 1) % plen) false = decide (plen ≤ n + 1) := by
      rw [getD_set, i3]
      by_cases hc : plen ≤ n + 1
      · by_cases hcc : n % plen = (n + 1) % plen
        · rw [if_pos ⟨hcc, hsucclt⟩]
          simp [hc]
        · rw [if_neg (fun hh => hcc hh.1), i4 _ hsucclt]
          have hlt2 : (n + 1) % plen < min n plen := by
            rcases Nat.lt_or_ge n plen with h1 | h1
            · have hn1 : n + 1 = plen := by omega
              have hz : (n + 1) % plen = 0 := by rw [hn1, Nat.mod_self]
              have hm1 : n % plen = n := Nat.mod_eq_of_lt h1
              rw [hm1, hz] at hcc
              rw [hz]
              omega
            · have hmin : min n plen = plen := by omega
              omega
          simp [hlt2, hc]
      · have hm1 : n % plen = n := Nat.mod_eq_of_lt (by omega)
        have hm2 : (n + 1) % plen = n + 1 := Nat.mod_eq_of_lt (by omega)
        rw [if_neg (fun hh => by rw [hm1, hm2] at hh; omega), i4 _ hsucclt]
        rw [hm2]
        exact decide_eq_decide.mpr (by omega)
    refine ⟨f1, ?_, ?_, hunproc, ?_⟩
    · rw [f2, i2, succ_mod_if n plen hp]
    · rw [f4, List.length_set, i3]
    · rw [f6, i5, i2, succ_mod_if n plen hp, hgetD]
      by_cases hc : plen ≤ n + 1
      · rw [if_pos (by simp [hc] : decide (plen ≤ n + 1) = true)]
        omega
      · rw [if_neg (by simp [hc] : ¬decide (plen ≤ n + 1) = true)]
        omega

lemma count_range_map (m : ℕ) :
    ∀ plen, (((List.range plen).map (fun j => decide (j < m))).count true) =
      min m plen := by
  intro plen
  induction plen with
  | zero => simp
  | succ p ih =>
    rw [List.range_succ, List.map_append, List.count_append, ih]
    by_cases h : p < m
    · simp [h]
      omega
    · simp [h]
      omega

lemma count_true_of_pointwise (plen m : ℕ) (u : List Bool) (hlen : u.length = plen)
    (hpt : ∀ j, j < plen → u.getD j false = decide (j < m)) :
    u.count true = min m plen := by
  have hueq : u = (List.range plen).map (fun j => decide (j < m)) := by
    apply List.ext_getElem
    · simp [hlen]
    · intro j h1 h2
      have hj : j < plen := by rw [hlen] at h1; exact h1
      have := hpt j hj
      rw [List.getD_eq_getElem _ _ h1] at this
      rw [this]
      simp
  rw [hueq, count_range_map]

/-- C2 (amended): from the empty pipeline, after exactly `k` whole seconds
(`k * samplerate` appended sample triples) with no draining, exactly
`min k plen` slots are marked ready — `k` slots for every `k ≤ plen`, and
exactly `plen` from then on — and "Realtime error!" has been reported
exactly `k - (plen - 1)` times: the first report happens already at the
completion of second `plen`, when the write pointer wraps onto
still-ready slot 0, and one more follows at the end of every further
second. -/
theorem ring_pipeline_ready_and_overrun (samplerate plen k : ℕ)
    (l : List (ℝ × ℝ × ℝ)) (hsr : 0 < samplerate) (hp : 0 < plen)
    (hl : l.length = k * samplerate) :
    readyCount (SpatialDataHandler samplerate plen l (initSt samplerate plen)) =
      min k plen ∧
    (SpatialDataHandler samplerate plen l (initSt samplerate plen)).rtErrors =
      k - (plen - 1) := by
  obtain ⟨h1, h2, h3, h4, h5⟩ := seconds_state samplerate plen hsr hp k l hl
  refine ⟨?_, h5⟩
  rw [readyCount, count_true_of_pointwise plen (min k plen) _ h3 h4]
  omega

/-- Witness for C2 (amended): samplerate 1, pipeline length 2, three
seconds. -/
theorem ring_pipeline_ready_and_overrun_witness :
    readyCount (SpatialDataHandler 1 2 (List.replicate 3 ((0 : ℝ), (0 : ℝ), (0 : ℝ)))
      (initSt 1 2)) = min 3 2 ∧
    (SpatialDataHandler 1 2 (List.replicate 3 ((0 : ℝ), (0 : ℝ), (0 : ℝ)))
      (initSt 1 2)).rtErrors = 3 - (2 - 1) :=
  ring_pipeline_ready_and_overrun 1 2 3 _ (by omega) (by omega) (by simp)

/-- Counterexample for C2 as stated: with samplerate 1000 and pipeline
length 100, after 101 whole seconds with no draining the claim predicts
exactly one overrun report (once per extra second beyond 100), but the
code has reported twice — the first report already occurred at the
completion of second 100. -/
theorem ring_pipeline_overrun_counterexample :
    (SpatialDataHandler 1000 100 (List.replicate 101000 ((0 : ℝ), (0 : ℝ), (0 : ℝ)))
      (initSt 1000 100)).rtErrors = 2 ∧ (101 : ℕ) - 100 = 1 ∧ (2 : ℕ) ≠ 1 := by
  refine ⟨?_, by omega, by omega⟩
  have h := (seconds_state 1000 100 (by omega) (by omega) 101
    (List.replicate 101000 ((0 : ℝ), (0 : ℝ), (0 : ℝ)))
    (by rw [List.length_replicate])).2.2.2.2
  rw [h]

lemma process_no_ready (samplerate maxfreq avg_int_in_sec plen : ℕ)
    (max_instead_of_avg : Bool) (rfft : ℕ → (ℕ → ℝ) → ℕ → ℝ) (s : St) (fs : FS)
    (h : ∀ j, s.unproc.getD j false = false) :
    process samplerate maxfreq avg_int_in_sec plen max_instead_of_avg rfft s fs =
      (s, fs) := by
  simp only [process]
  have hstep : ∀ k, process_step samplerate maxfreq avg_int_in_sec plen
      max_instead_of_avg rfft (s, fs) k = (s, fs) := by
    intro k
    simp only [process_step]
    rw [if_neg (by rw [h (wrapSub (s.ibptr + k + plen / 10) plen)]; simp)]
  have hall : ∀ ks : List ℕ, ks.foldl (process_step samplerate maxfreq avg_int_in_sec
      plen max_instead_of_avg rfft) (s, fs) = (s, fs) := by
    intro ks
    induction ks with
    | nil => rfl
    | cons k ks ih => rw [List.foldl_cons, hstep, ih]
  exact hall _

/-- C8: with samplerate 100, ingesting exactly 99 sample triples into the
empty pipeline leaves every slot's ready flag false and reports no overrun,
and a subsequent `process` scan changes nothing and emits nothing — the
partially filled active slot is never handed to the consumer. -/
theorem incomplete_second_not_consumed (l : List (ℝ × ℝ × ℝ)) (hl : l.length = 99)
    (maxfreq avg_int_in_sec : ℕ) (max_instead_of_avg : Bool)
    (rfft : ℕ → (ℕ → ℝ) → ℕ → ℝ) (fs : FS) :
    (∀ j, (SpatialDataHandler 100 100 l (initSt 100 100)).unproc.getD j false =
      false) ∧
    (SpatialDataHandler 100 100 l (initSt 100 100)).rtErrors = 0 ∧
    process 100 maxfreq avg_int_in_sec 100 max_instead_of_avg rfft
      (SpatialDataHandler 100 100 l (initSt 100 100)) fs =
      (SpatialDataHandler 100 100 l (initSt 100 100), fs) := by
  obtain ⟨h1, h2, h3, h4, h5, h6⟩ := run_under_second 100 100 l (initSt 100 100)
    (by rw [hl]; decide)
  have hall : ∀ j, (SpatialDataHandler 100 100 l (initSt 100 100)).unproc.getD j
      false = false := by
    intro j
    rw [h4]
    show (List.replicate 100 false).getD j false = false
    by_cases hj : j < 100
    · rw [List.getD_eq_getElem _ _ (by simpa using hj), List.getElem_replicate]
    · rw [List.getD_eq_default]
      simpa using hj
  exact ⟨hall, by rw [h6]; rfl, process_no_ready 100 maxfreq avg_int_in_sec 100
    max_instead_of_avg rfft _ fs hall⟩

/-- Witness for C8: 99 zero triples. -/
theorem incomplete_second_not_consumed_witness :
    (SpatialDataHandler 100 100 (List.replicate 99 ((0 : ℝ), (0 : ℝ), (0 : ℝ)))
      (initSt 100 100)).rtErrors = 0 :=
  (incomplete_second_not_consumed (List.replicate 99 ((0 : ℝ), (0 : ℝ), (0 : ℝ)))
    (by simp) 0 1 false (fun _ _ _ => 0) ⟨true, true, []⟩).2.1

lemma dataStep_cursors (samplerate plen : ℕ) (t : ℝ × ℝ × ℝ) (s : St) :
    ((dataStep samplerate plen t s).rbufi =
      if s.rbufi + 1 = samplerate then 0 else s.rbufi + 1) ∧
    ((dataStep samplerate plen t s).ibptr =
      if s.rbufi + 1 = samplerate then
        (if plen ≤ s.ibptr + 1 then 0 else s.ibptr + 1)
      else s.ibptr) := by
  by_cases hb : s.rbufi + 1 = samplerate
  · simp [dataStep, hb]
  · simp [dataStep, hb]

lemma run_cursor_bounds (samplerate plen : ℕ) (hsr : 0 < samplerate)
    (hp : 0 < plen) :
    ∀ (l : List (ℝ × ℝ × ℝ)) (s : St), s.rbufi < samplerate → s.ibptr < plen →
      ((SpatialDataHandler samplerate plen l s).rbufi < samplerate ∧
       (SpatialDataHandler samplerate plen l s).ibptr < plen) := by
  intro l
  induction l with
  | nil => intro s h1 h2; exact ⟨h1, h2⟩
  | cons t l ih =>
    intro s h1 h2
    rw [run_cons]
    obtain ⟨c1, c2⟩ := dataStep_cursors samplerate plen t s
    apply ih
    · rw [c1]
      by_cases hb : s.rbufi + 1 = samplerate
      · rw [if_pos hb]; omega
      · rw [if_neg hb]; omega
    · rw [c2]
      by_cases hb : s.rbufi + 1 = samplerate
      · rw [if_pos hb]
        by_cases hw : plen ≤ s.ibptr + 1
        · rw [if_pos hw]; omega
        · rw [if_neg hw]; omega
      · rw [if_neg hb]; omega

/-- C10: after every invocation of the sample-ingestion handler the two
write cursors stay inside the allocated bounds — `rbufi < samplerate` and
`ibptr < plen` — and one ingest step resets `rbufi` to 0 exactly when the
second completes and then advances `ibptr` by `(ibptr + 1) % plen`,
wrapping to 0 exactly when it is incremented past `plen - 1` and never
holding the value `plen`. -/
theorem handler_cursor_bounds (samplerate plen : ℕ) (l : List (ℝ × ℝ × ℝ))
    (s : St) (hsr : 0 < samplerate) (hp : 0 < plen) (hr : s.rbufi < samplerate)
    (hi : s.ibptr < plen) :
    ((SpatialDataHandler samplerate plen l s).rbufi < samplerate ∧
     (SpatialDataHandler samplerate plen l s).ibptr < plen) ∧
    (∀ (t : ℝ × ℝ × ℝ) (s0 : St), s0.ibptr < plen →
      ((dataStep samplerate plen t s0).rbufi =
        if s0.rbufi + 1 = samplerate then 0 else s0.rbufi + 1) ∧
      ((dataStep samplerate plen t s0).ibptr =
        if s0.rbufi + 1 = samplerate then (s0.ibptr + 1) % plen else s0.ibptr)) := by
  refine ⟨run_cursor_bounds samplerate plen hsr hp l s hr hi, ?_⟩
  intro t s0 hi0
  obtain ⟨c1, c2⟩ := dataStep_cursors samplerate plen t s0
  refine ⟨c1, ?_⟩
  rw [c2]
  by_cases hb : s0.rbufi + 1 = samplerate
  · rw [if_pos hb, if_pos hb]
    by_cases hw : plen ≤ s0.ibptr + 1
    · rw [if_pos hw]
      have : s0.ibptr + 1 = plen := by omega
      rw [this, Nat.mod_self]
    · rw [if_neg hw, Nat.mod_eq_of_lt (by omega)]
  · rw [if_neg hb, if_neg hb]

/-- Witness for C10: five samples at samplerate 2, pipeline length 2. -/
theorem handler_cursor_bounds_witness :
    (SpatialDataHandler 2 2 (List.replicate 5 ((0 : ℝ), (0 : ℝ), (0 : ℝ)))
      (initSt 2 2)).rbufi < 2 ∧
    (SpatialDataHandler 2 2 (List.replicate 5 ((0 : ℝ), (0 : ℝ), (0 : ℝ)))
      (initSt 2 2)).ibptr < 2 :=
  (handler_cursor_bounds 2 2 (List.replicate 5 ((0 : ℝ), (0 : ℝ), (0 : ℝ)))
    (initSt 2 2) (by omega) (by omega) (by decide) (by decide)).1

end
